import Mathlib

/-!
Verification of the feature-derivation pipeline in
`scripts/generate_spx_daily.py`.

Modelling conventions, used throughout:
* a pandas numeric value is an exact rational (`ℚ`); a pandas `NaN`
  (missing value) is `none`, so a series is a `List (Option ℚ)`;
* a pandas comparison with `NaN` on either side is false, encoded by the
  `oLtB` / `oLeB` / `oGtB` / `oGeB` helpers;
* elementwise arithmetic on two series propagates missingness
  (`NaN op x = NaN`), encoded by `omap2`;
* dataframe column assignment and `reindex` are modelled on association
  lists from column names to cell lists.
-/

/-- Pandas elementwise `a < b` on possibly missing values; a comparison
involving a missing value is false. -/
def oLtB (a b : Option ℚ) : Bool :=
  match a, b with
  | some x, some y => decide (x < y)
  | _, _ => false

/-- Pandas elementwise `a ≤ b` on possibly missing values; a comparison
involving a missing value is false. -/
def oLeB (a b : Option ℚ) : Bool :=
  match a, b with
  | some x, some y => decide (x ≤ y)
  | _, _ => false

/-- Pandas elementwise `a > b`. -/
def oGtB (a b : Option ℚ) : Bool := oLtB b a

/-- Pandas elementwise `a >= b`. -/
def oGeB (a b : Option ℚ) : Bool := oLeB b a

/-- NaN-propagating binary arithmetic on possibly missing values. -/
def omap2 (f : ℚ → ℚ → ℚ) (a b : Option ℚ) : Option ℚ :=
  match a, b with
  | some x, some y => some (f x y)
  | _, _ => none

/-- `vol_regime` (line 55-56 of the script):
`pd.cut(v, bins=[-inf,12,15,20,25,35,inf], labels=[1..6])`.
`pd.cut` builds right-closed intervals, so the buckets are
`(-inf,12], (12,15], (15,20], (20,25], (25,35], (35,inf)`; a missing
input stays missing (the `Int64` cast keeps the NA). -/
def vol_regime (v : Option ℚ) : Option ℤ :=
  v.map fun x =>
    if x ≤ 12 then 1
    else if x ≤ 15 then 2
    else if x ≤ 20 then 3
    else if x ≤ 25 then 4
    else if x ≤ 35 then 5
    else 6

/-- `term_state` (lines 58-62), one row at a time: the series starts at 0,
rows where both ratios are `<= 1` are set to 1, rows where both ratios are
`> 1` are set to -1.  The two masks are elementwise and disjoint, so the
two sequential overwrites are equivalent to this if-chain; comparisons with
a missing ratio are false. -/
def term_state (r9d rvx3m : Option ℚ) : ℤ :=
  if oLeB r9d (some 1) && oLeB rvx3m (some 1) then 1
  else if oGtB r9d (some 1) && oGtB rvx3m (some 1) then -1
  else 0

/-- `Gap_Filled` (line 114), one row at a time over the four columns the
expression reads:
`((Gap_Pct>0)&(low<=Prior_Close)|(Gap_Pct<0)&(high>=Prior_Close)).astype(int)`. -/
def gap_filled (gapPct low high priorClose : Option ℚ) : ℤ :=
  if (oGtB gapPct (some 0) && oLeB low priorClose)
      || (oLtB gapPct (some 0) && oGeB high priorClose) then 1 else 0

/-- One iteration of the streak loop in `consec` (lines 66-71). -/
def consecStep (streak : ℤ) (r : Option ℚ) : ℤ :=
  match r with
  | none => 0
  | some v =>
    if 0 < v then max (streak + 1) 1
    else if v < 0 then min (streak - 1) (-1)
    else 0

/-- The streak loop of `consec` (lines 64-72), carrying the running streak. -/
def consecAux (streak : ℤ) : List (Option ℚ) → List ℤ
  | [] => []
  | r :: rs =>
    let s := consecStep streak r
    s :: consecAux s rs

/-- `consec` (lines 64-72): the streak starts at 0. -/
def consec (ret : List (Option ℚ)) : List ℤ := consecAux 0 ret

/-- A civil calendar date (what a normalized pandas Timestamp carries). -/
structure CivilDate where
  y : ℤ
  m : ℤ
  d : ℤ
deriving DecidableEq, Repr

/-- Days since 1970-01-01 of a civil date: the standard civil-from-days
conversion, written with flooring integer division (which `Int` division
is), so no negative-year adjustment term is needed. -/
def daysFromCivil (y m d : ℤ) : ℤ :=
  let yy := if m ≤ 2 then y - 1 else y
  let era := yy / 400
  let yoe := yy - era * 400
  let mp := if 2 < m then m - 3 else m + 9
  let doy := (153 * mp + 2) / 5 + d - 1
  let doe := yoe * 365 + yoe / 4 - yoe / 100 + doy
  era * 146097 + doe - 719468

def epochDay (dt : CivilDate) : ℤ := daysFromCivil dt.y dt.m dt.d

/-- Python/pandas weekday convention: Monday = 0 ... Sunday = 6.
1970-01-01 was a Thursday, weekday 3. -/
def weekday (dt : CivilDate) : ℤ := (epochDay dt + 3) % 7

/-- `is_opex` (lines 74-81) on one date: take the first of the month, the
first Friday on or after it (`(4 - f.weekday()) % 7` days later), add two
weeks; the flag is 1 when the date equals that third Friday. -/
def is_opex (dt : CivilDate) : ℤ :=
  let fw := weekday ⟨dt.y, dt.m, 1⟩
  let ff := 1 + (4 - fw) % 7
  let tf := ff + 14
  if dt.d = tf then 1 else 0

/-- `Day_of_Week` (line 124) on one date: pandas dayofweek (Monday = 0)
plus 2. -/
def day_of_week (dt : CivilDate) : ℤ := weekday dt + 2

/-- A date is the third Friday of its month exactly when it is a Friday
whose day of month lies in 15..21. -/
def isThirdFriday (dt : CivilDate) : Prop :=
  weekday dt = 4 ∧ 15 ≤ dt.d ∧ dt.d ≤ 21

/-- `s.diff()` (line 31): first entry missing, then successive
differences. -/
def diff : List ℚ → List (Option ℚ)
  | [] => []
  | x :: xs => none :: List.zipWith (fun prev cur => some (cur - prev)) (x :: xs) xs

/-- The (weight, value) pairs of the non-missing observations of a prefix,
newest first.  With the pandas defaults adjust=True and ignore_na=False the
observation k positions before the current one has weight `r^k` with
`r = 1 - alpha`, whether or not values in between are missing; a missing
observation contributes no term. -/
def ewmTerms (r : ℚ) : List (Option ℚ) → List (ℚ × ℚ)
  | [] => []
  | none :: rest => (ewmTerms r rest).map fun p => (r * p.1, p.2)
  | some v :: rest => (1, v) :: ((ewmTerms r rest).map fun p => (r * p.1, p.2))

/-- `Series.ewm(com=com, min_periods=minp).mean()` with the pandas defaults
adjust=True and ignore_na=False: at each position, the weighted mean of the
non-missing observations so far with decay `1 - 1/(1+com)`; missing until
`minp` non-missing observations have been seen. -/
def ewmMean (com : ℚ) (minp : ℕ) (xs : List (Option ℚ)) : List (Option ℚ) :=
  let r := 1 - 1 / (1 + com)
  (List.range xs.length).map fun t =>
    let obs := ewmTerms r ((xs.take (t + 1)).reverse)
    if minp ≤ obs.length ∧ 0 < obs.length then
      some ((obs.map fun p => p.1 * p.2).sum / (obs.map Prod.fst).sum)
    else none

/-- The smoothed gain series `g` of `rsi` (line 32): upward moves, ewm mean
with com = n-1 = 13 and min_periods = n = 14. -/
def gainAvg (s : List ℚ) : List (Option ℚ) :=
  ewmMean 13 14 ((diff s).map (Option.map fun x => max x 0))

/-- The smoothed loss series `l` of `rsi` (line 33): downward moves as
nonnegative numbers, `-d.clip(upper=0)`. -/
def lossAvg (s : List ℚ) : List (Option ℚ) :=
  ewmMean 13 14 ((diff s).map (Option.map fun x => -(min x 0)))

/-- The final formula of `rsi` (line 34) on one row:
`100 - 100/(1 + g/l.replace(0,np.nan))`.  Replacing a zero average loss by
NaN makes the whole expression NaN (missing) on such rows, because every
arithmetic operation propagates NaN. -/
def rsiCombine (g l : Option ℚ) : Option ℚ :=
  match g, l.bind (fun v => if v = 0 then none else some v) with
  | some gv, some lv => some (100 - 100 / (1 + gv / lv))
  | _, _ => none

/-- `rsi` (lines 30-34) with the default n = 14. -/
def rsi (s : List ℚ) : List (Option ℚ) :=
  List.zipWith rsiCombine (gainAvg s) (lossAvg s)

/-- The concrete close series for the C1 counterexample: 15 constant
closes, so every move is zero, the smoothed average loss at the first
post-warm-up position is exactly 0, and so is the smoothed average gain. -/
def rsiCexClose : List ℚ := List.replicate 15 100

/-- pandas `shift(1)` on a fully populated series: first entry missing,
then the previous values. -/
def shift1 (s : List ℚ) : List (Option ℚ) :=
  (none :: s.map some).take s.length

/-- pandas `shift(1)` on a possibly missing series. -/
def shiftO (s : List (Option ℚ)) : List (Option ℚ) :=
  (none :: s).take s.length

/-- Elementwise NaN-propagating arithmetic between two aligned series. -/
def zipO2 (f : ℚ → ℚ → ℚ) (a b : List (Option ℚ)) : List (Option ℚ) :=
  List.zipWith (omap2 f) a b

/-- Series wrapped into the missing-value representation. -/
def toOpt (s : List ℚ) : List (Option ℚ) := s.map some

/-- Elementwise ternary arithmetic on fully populated series. -/
def zipWith3Q (f : ℚ → ℚ → ℚ → ℚ) : List ℚ → List ℚ → List ℚ → List ℚ
  | a :: as, b :: bs, c :: cs => f a b c :: zipWith3Q f as bs cs
  | _, _, _ => []

/-- The Gap_Filled column (line 114) over its four input columns. -/
def gapFilledCol : List (Option ℚ) → List (Option ℚ) → List (Option ℚ) →
    List (Option ℚ) → List ℤ
  | g :: gs, l :: ls, h :: hs, p :: ps =>
    gap_filled g l h p :: gapFilledCol gs ls hs ps
  | _, _, _, _ => []

/-- The recursion of `ewm(span=n, adjust=False).mean()`:
`y_t = (1-α) y_{t-1} + α x_t`. -/
def emaAux (a : ℚ) (prev : ℚ) : List ℚ → List ℚ
  | [] => []
  | x :: xs =>
    let y := (1 - a) * prev + a * x
    y :: emaAux a y xs

/-- `ema` (line 41): `s.ewm(span=n, adjust=False).mean()` with
`α = 2/(n+1)` and `y_0 = x_0`. -/
def ema (s : List ℚ) (n : ℚ) : List ℚ :=
  match s with
  | [] => []
  | x :: xs => x :: emaAux (2 / (n + 1)) x xs

/-- `sma` (line 42): `s.rolling(n).mean()`, missing until a full window of
n observations exists (every use has n ≥ 1). -/
def sma (s : List ℚ) (n : ℕ) : List (Option ℚ) :=
  (List.range s.length).map fun i =>
    if n ≤ i + 1 then some ((((s.take (i + 1)).drop (i + 1 - n)).sum) / (n : ℚ)) else none

/-- True range (lines 37-38): rowwise max of high-low, |high-prior close|
and |low-prior close|; on the first row the prior close is missing, the
rowwise max skips NaN and leaves high-low. -/
def trueRange (h l c : List ℚ) : List ℚ :=
  (List.range h.length).map fun i =>
    let hi := h.getD i 0
    let lo := l.getD i 0
    if i = 0 then hi - lo
    else
      let pc := c.getD (i - 1) 0
      max (hi - lo) (max |hi - pc| |lo - pc|)

/-- `atr` (lines 36-39): ewm smoothing of the true range with com = 13 and
min_periods = 14. -/
def atr (h l c : List ℚ) : List (Option ℚ) :=
  ewmMean 13 14 ((trueRange h l c).map some)

/-- `Series.pct_change(k)` on a fully populated series: value over the
value k rows earlier, minus 1; missing for the first k rows. -/
def pct_change (s : List ℚ) (k : ℕ) : List (Option ℚ) :=
  (List.range s.length).map fun i =>
    if k ≤ i then some (s.getD i 0 / s.getD (i - k) 0 - 1) else none

/-- `Series.pct_change()` on a possibly missing series, modelled without
forward-filling (a missing neighbour yields a missing change; the verified
properties only read the all-missing case, where filling is irrelevant). -/
def pct_changeO (s : List (Option ℚ)) : List (Option ℚ) :=
  (List.range s.length).map fun i =>
    if 1 ≤ i then omap2 (fun cur prev => cur / prev - 1) (s.getD i none) (s.getD (i - 1) none)
    else none

/-- `np.sign`. -/
def npSign (x : ℚ) : ℤ := if 0 < x then 1 else if x < 0 then -1 else 0

/-- `trend_score` (lines 48-53): sign of close versus the 21/50/200 EMAs,
plus 1 when the 5-period slope of the 21-EMA exceeds 0.5 percent, minus 1
when it is below -0.5 percent (the slope is missing on the first 5 rows
and a NaN comparison is false); the sum is an integer in -4..4 already, so
the final round and clip to -5..5 keep it unchanged, and the clip is kept
here. -/
def trend_score (c : List ℚ) : List ℤ :=
  let e21 := ema c 21
  let e50 := ema c 50
  let e200 := ema c 200
  (List.range c.length).map fun i =>
    let x := c.getD i 0
    let slope : Option ℚ :=
      if 5 ≤ i then some ((e21.getD i 0 - e21.getD (i - 5) 0) / e21.getD (i - 5) 0 * 100)
      else none
    let sc := npSign (x - e21.getD i 0) + npSign (x - e50.getD i 0) +
      npSign (x - e200.getD i 0) +
      (if oGtB slope (some (1 / 2)) then 1 else 0) +
      (if oLtB slope (some (-(1 / 2))) then -1 else 0)
    max (-5) (min 5 sc)

/-- `vix_pct` (line 83): `v.rolling(252, min_periods=20).rank(pct=True)*100`:
average-method percentile rank of the current value within its trailing
252-observation window, missing while fewer than 20 non-missing
observations are in the window or when the current value is missing. -/
def vix_pct (v : List (Option ℚ)) : List (Option ℚ) :=
  (List.range v.length).map fun i =>
    match v.getD i none with
    | none => none
    | some x =>
      let win := ((v.take (i + 1)).drop (i + 1 - 252)).filterMap id
      if 20 ≤ win.length then
        let less := (win.filter fun y => decide (y < x)).length
        let ties := (win.filter fun y => decide (y = x)).length
        some (((less : ℚ) + ((ties : ℚ) + 1) / 2) / (win.length : ℚ) * 100)
      else none

/-- One CSV cell: missing, rational, integer or text. -/
inductive Cell where
  | na : Cell
  | num : ℚ → Cell
  | int : ℤ → Cell
  | str : String → Cell
deriving DecidableEq, Repr

def ofOpt : Option ℚ → Cell
  | none => Cell.na
  | some q => Cell.num q

def ofOptCol (s : List (Option ℚ)) : List Cell := s.map ofOpt

def numCol (s : List ℚ) : List Cell := s.map Cell.num

def intCol (s : List ℤ) : List Cell := s.map Cell.int

def intOptCol (s : List (Option ℤ)) : List Cell :=
  s.map fun o => (o.map Cell.int).getD Cell.na

def naCol (n : ℕ) : List Cell := List.replicate n Cell.na

/-- A successfully downloaded OHLC frame (`download`, lines 20-28): four
price columns on normalized dates; `download` raises on an empty result,
so a returned frame is nonempty, and a dataframe is rectangular. -/
structure RawFrame where
  dates : List CivilDate
  opens : List ℚ
  highs : List ℚ
  lows : List ℚ
  closes : List ℚ
  nonempty : dates ≠ []
  len_opens : opens.length = dates.length
  len_highs : highs.length = dates.length
  len_lows : lows.length = dates.length
  len_closes : closes.length = dates.length

/-- A frame after `reindex` onto the master calendar (line 99): one
possibly missing value per calendar date per column. -/
structure AlignedFrame where
  opens : List (Option ℚ)
  highs : List (Option ℚ)
  lows : List (Option ℚ)
  closes : List (Option ℚ)

/-- The value of a stored series at one reindexed date. -/
def lookupDate (ds : List CivilDate) (vs : List ℚ) (x : CivilDate) : Option ℚ :=
  ((ds.zip vs).find? fun p => decide (p.1 = x)).map Prod.snd

/-- `reindex` (line 99) of a downloaded frame onto the master calendar:
dates absent from the frame hold missing values. -/
def reindexFrame (f : RawFrame) (idx : List CivilDate) : AlignedFrame :=
  { opens := idx.map (lookupDate f.dates f.opens)
    highs := idx.map (lookupDate f.dates f.highs)
    lows := idx.map (lookupDate f.dates f.lows)
    closes := idx.map (lookupDate f.dates f.closes) }

/-- The substitute for an unavailable secondary instrument (lines 93 and
96): an all-missing frame on the master calendar.  The real substitute
dataframe only has Open and Close columns, and the high/low columns of a
secondary instrument are never read. -/
def emptyAligned (idx : List CivilDate) : AlignedFrame :=
  { opens := idx.map fun _ => none
    highs := idx.map fun _ => none
    lows := idx.map fun _ => none
    closes := idx.map fun _ => none }

/-- The guarded download of a secondary instrument (lines 91-96): a
failure is caught and replaced by the all-missing frame. -/
def fetchSecondary (r : Except String RawFrame) (idx : List CivilDate) : AlignedFrame :=
  match r with
  | .ok f => reindexFrame f idx
  | .error _ => emptyAligned idx

/-- The Unix timestamp column (line 104): 4 PM in the US/Eastern timezone
on the trading date.  Timezone and daylight-saving arithmetic are outside
this model; the timestamp is modelled as an affine function of the epoch
day, which no verified property reads numerically. -/
def closeTimestamp (dt : CivilDate) : ℤ := 86400 * epochDay dt + 72000

/-- The formatted date string (line 102).  The exact text format is not
read by any verified property; the model keeps an injective rendering of
the civil date. -/
def dateLabel (dt : CivilDate) : String :=
  toString dt.y ++ "-" ++ toString dt.m ++ "-" ++ toString dt.d

/-- All dataframe column assignments of `build` (lines 101-147), in
source order, as an association list from column name to cells.
`BB_Position` (line 44-46) normalizes price inside a rolling
mean-plus-standard-deviation band; a standard deviation is an irrational
square root, which has no exact rational representation, so the numeric
content of that single column is left unmodelled (no verified property
reads it); every other column is computed. -/
def buildColumns (spx : RawFrame) (vix vix9d vix3m : AlignedFrame) :
    List (String × List Cell) :=
  let idx := spx.dates
  let priorClose := shift1 spx.closes
  let openO := toOpt spx.opens
  let highO := toOpt spx.highs
  let lowO := toOpt spx.lows
  let closeO := toOpt spx.closes
  let gapPct := zipO2 (fun o pc => (o - pc) / pc * 100) openO priorClose
  let totalReturn := zipO2 (fun c pc => (c - pc) / pc * 100) closeO priorClose
  let r9dRatio := zipO2 (fun a b => a / b) vix9d.closes vix.closes
  let r3mRatio := zipO2 (fun a b => a / b) vix.closes vix3m.closes
  [("ticker", idx.map fun _ => Cell.str "SPX"),
   ("date", idx.map fun dt => Cell.str (dateLabel dt)),
   ("time", idx.map fun dt => Cell.int (closeTimestamp dt)),
   ("Prior_Close", ofOptCol priorClose),
   ("open", numCol spx.opens),
   ("high", numCol spx.highs),
   ("low", numCol spx.lows),
   ("close", numCol spx.closes),
   ("Intraday_High", numCol spx.highs),
   ("Intraday_Low", numCol spx.lows),
   ("Gap_Pct", ofOptCol gapPct),
   ("Intraday_Range_Pct",
     numCol (zipWith3Q (fun h l o => (h - l) / o * 100) spx.highs spx.lows spx.opens)),
   ("Intraday_Return_Pct",
     numCol (List.zipWith (fun c o => (c - o) / o * 100) spx.closes spx.opens)),
   ("Total_Return_Pct", ofOptCol totalReturn),
   ("Close_Position_In_Range",
     numCol (zipWith3Q (fun c l h => max 0 (min 1 ((c - l) / (h - l))))
       spx.closes spx.lows spx.highs)),
   ("Gap_Filled", intCol (gapFilledCol gapPct lowO highO priorClose)),
   ("Return_5D", ofOptCol ((pct_change spx.closes 5).map (Option.map (· * 100)))),
   ("Return_20D", ofOptCol ((pct_change spx.closes 20).map (Option.map (· * 100)))),
   ("Prev_Return_Pct", ofOptCol (shiftO totalReturn)),
   ("Consecutive_Days", intCol (consec totalReturn)),
   ("RSI_14", ofOptCol (rsi spx.closes)),
   ("ATR_Pct",
     ofOptCol (zipO2 (fun a c => a / c * 100) (atr spx.highs spx.lows spx.closes) closeO)),
   ("Price_vs_EMA21_Pct",
     numCol (List.zipWith (fun c e => (c / e - 1) * 100) spx.closes (ema spx.closes 21))),
   ("Price_vs_SMA50_Pct",
     ofOptCol (zipO2 (fun c m => (c / m - 1) * 100) closeO (sma spx.closes 50))),
   ("BB_Position", naCol idx.length),
   ("Trend_Score", intCol (trend_score spx.closes)),
   ("Day_of_Week", intCol (idx.map day_of_week)),
   ("Month", intCol (idx.map fun dt => dt.m)),
   ("Is_Opex", intCol (idx.map is_opex)),
   ("VIX_Open", ofOptCol vix.opens),
   ("VIX_Close", ofOptCol vix.closes),
   ("VIX_High", ofOptCol vix.highs),
   ("VIX_Low", ofOptCol vix.lows),
   ("VIX_Change_Pct", ofOptCol ((pct_changeO vix.closes).map (Option.map (· * 100)))),
   ("VIX_Gap_Pct",
     ofOptCol (zipO2 (fun o pc => (o - pc) / pc * 100) vix.opens (shiftO vix.closes))),
   ("VIX_Spike_Pct",
     ofOptCol (zipO2 (fun h o => (h - o) / o * 100) vix.highs vix.opens)),
   ("VIX_Percentile", ofOptCol (vix_pct vix.closes)),
   ("VIX9D_Open", ofOptCol vix9d.opens),
   ("VIX9D_Close", ofOptCol vix9d.closes),
   ("VIX9D_Change_Pct", ofOptCol ((pct_changeO vix9d.closes).map (Option.map (· * 100)))),
   ("VIX3M_Open", ofOptCol vix3m.opens),
   ("VIX3M_Close", ofOptCol vix3m.closes),
   ("VIX3M_Change_Pct", ofOptCol ((pct_changeO vix3m.closes).map (Option.map (· * 100)))),
   ("VIX9D_VIX_Ratio", ofOptCol r9dRatio),
   ("VIX_VIX3M_Ratio", ofOptCol r3mRatio),
   ("Vol_Regime", intOptCol (vix.closes.map vol_regime)),
   ("Term_Structure_State", intCol (List.zipWith term_state r9dRatio r3mRatio)),
   ("High_Time", naCol idx.length),
   ("Low_Time", naCol idx.length),
   ("High_Before_Low", naCol idx.length),
   ("High_In_First_Hour", naCol idx.length),
   ("Low_In_First_Hour", naCol idx.length),
   ("High_In_Last_Hour", naCol idx.length),
   ("Low_In_Last_Hour", naCol idx.length),
   ("Reversal_Type", naCol idx.length),
   ("High_Low_Spread", naCol idx.length),
   ("Early_Extreme", naCol idx.length),
   ("Late_Extreme", naCol idx.length)]

/-- The fixed output column order (lines 150-161). -/
def output_cols : List String :=
  ["time", "ticker", "date", "Prior_Close", "open", "high", "low", "close",
   "Gap_Pct", "Intraday_Range_Pct", "Intraday_Return_Pct", "Total_Return_Pct",
   "Close_Position_In_Range", "Gap_Filled",
   "VIX_Open", "VIX_Close", "VIX_Change_Pct", "VIX_Spike_Pct", "VIX_Percentile", "Vol_Regime",
   "VIX9D_Open", "VIX9D_Close", "VIX9D_Change_Pct",
   "VIX3M_Open", "VIX3M_Close", "VIX3M_Change_Pct",
   "VIX9D_VIX_Ratio", "VIX_VIX3M_Ratio", "Term_Structure_State",
   "ATR_Pct", "RSI_14", "Price_vs_EMA21_Pct", "Price_vs_SMA50_Pct", "Trend_Score", "BB_Position",
   "Return_5D", "Return_20D", "Consecutive_Days", "Day_of_Week", "Month", "Is_Opex", "Prev_Return_Pct",
   "High_Time", "Low_Time", "High_Before_Low", "High_In_First_Hour", "Low_In_First_Hour",
   "High_In_Last_Hour", "Low_In_Last_Hour", "Reversal_Type", "High_Low_Spread", "Early_Extreme", "Late_Extreme",
   "Intraday_High", "Intraday_Low", "VIX_High", "VIX_Low", "VIX_Gap_Pct"]

/-- One named column of the assembled dataframe; `reindex(columns=...)`
fills a name that was never assigned with an all-missing column. -/
def colEntry (tbl : List (String × List Cell)) (n : ℕ) (c : String) : List Cell :=
  ((tbl.find? fun p => decide (p.1 = c)).map Prod.snd).getD (naCol n)

/-- Row trimming (line 149): keep the rows whose date is on or after the
requested start date. -/
def trimCol (idx : List CivilDate) (start : CivilDate) (col : List Cell) : List Cell :=
  ((idx.zip col).filter fun p => decide (epochDay start ≤ epochDay p.1)).map Prod.snd

/-- The assembled output table (lines 101-162): every declared column in
the fixed output order, trimmed to the requested window. -/
def buildTable (start : CivilDate) (spx : RawFrame) (vix vix9d vix3m : AlignedFrame) :
    List (String × List Cell) :=
  let tbl := buildColumns spx vix vix9d vix3m
  output_cols.map fun c => (c, trimCol spx.dates start (colEntry tbl spx.dates.length c))

/-- The fetch-and-build control flow of `build` (lines 85-165): the SPX
and VIX downloads abort the run on failure, before any output exists; a
VIX9D or VIX3M failure is caught and replaced by an all-missing frame; on
success the assembled table is the content handed to `to_csv`.  An error
value means the run aborted before the write, so no output file is
created. -/
def buildRun (start : CivilDate) (spxR vixR vix9dR vix3mR : Except String RawFrame) :
    Except String (List (String × List Cell)) :=
  match spxR with
  | .error e => .error e
  | .ok spx =>
    match vixR with
    | .error e => .error e
    | .ok vixF =>
      let idx := spx.dates
      .ok (buildTable start spx (reindexFrame vixF idx)
        (fetchSecondary vix9dR idx) (fetchSecondary vix3mR idx))

/-- The header row `to_csv` emits. -/
def csvHeader (t : List (String × List Cell)) : List String := t.map Prod.fst

/-- The number of emitted data rows. -/
def nRows (t : List (String × List Cell)) : ℕ :=
  match t with
  | [] => 0
  | c :: _ => c.2.length

/-- The emitted data rows (`to_csv` with index=False): row i holds the
i-th cell of every column, in column order. -/
def csvRows (t : List (String × List Cell)) : List (List Cell) :=
  (List.range (nRows t)).map fun i => t.map fun c => c.2.getD i Cell.na

/-- The cells of one named column of the emitted table. -/
def getCol (t : List (String × List Cell)) (c : String) : List Cell :=
  ((t.find? fun p => decide (p.1 = c)).map Prod.snd).getD []

/-- A tiny concrete two-day calendar used by the witnesses. -/
def demoDates : List CivilDate := [⟨2024, 1, 15⟩, ⟨2024, 1, 16⟩]

/-- A concrete two-day index frame used by the witnesses. -/
def demoSpx : RawFrame where
  dates := demoDates
  opens := [1, 2]
  highs := [3, 4]
  lows := [1, 1]
  closes := [2, 3]
  nonempty := by decide
  len_opens := rfl
  len_highs := rfl
  len_lows := rfl
  len_closes := rfl

/-- A concrete two-day short-vol frame used by the witnesses, on the same
calendar as the index frame. -/
def demoVix : RawFrame where
  dates := demoDates
  opens := [14, 15]
  highs := [16, 17]
  lows := [13, 14]
  closes := [15, 16]
  nonempty := by decide
  len_opens := rfl
  len_highs := rfl
  len_lows := rfl
  len_closes := rfl

/-- An all-missing aligned frame on the demo calendar. -/
def demoAligned : AlignedFrame := emptyAligned demoDates

lemma consecAux_length (s : ℤ) (ret : List (Option ℚ)) :
    (consecAux s ret).length = ret.length := by
  induction ret generalizing s with
  | nil => rfl
  | cons r rs ih => simp [consecAux, ih]

lemma consec_length (ret : List (Option ℚ)) : (consec ret).length = ret.length :=
  consecAux_length 0 ret

lemma consecAux_getD_zero (s : ℤ) (r : Option ℚ) (rs : List (Option ℚ)) :
    (consecAux s (r :: rs)).getD 0 0 = consecStep s r := rfl

lemma consecAux_getD_succ (s : ℤ) (ret : List (Option ℚ)) (i : ℕ)
    (h : i + 1 < ret.length) :
    (consecAux s ret).getD (i + 1) 0 =
      consecStep ((consecAux s ret).getD i 0) (ret.getD (i + 1) none) := by
  induction ret generalizing s i with
  | nil => simp at h
  | cons r rs ih =>
    match i with
    | 0 =>
      match rs, h with
      | r2 :: rs2, _ => rfl
    | i + 1 =>
      have h2 : i + 1 < rs.length := by simpa using h
      simpa [consecAux] using ih (consecStep s r) i h2

lemma consec_getD_eq_step (ret : List (Option ℚ)) (i : ℕ) (h : i < ret.length) :
    ∃ p : ℤ, (consec ret).getD i 0 = consecStep p (ret.getD i none) ∧
      (0 < i → p = (consec ret).getD (i - 1) 0) := by
  match i with
  | 0 =>
    match ret, h with
    | r :: rs, _ => exact ⟨0, rfl, by omega⟩
  | i + 1 =>
    exact ⟨(consec ret).getD i 0, consecAux_getD_succ 0 ret i h, fun _ => by simp⟩

lemma consecStep_eq_zero_iff (p : ℤ) (r : Option ℚ) :
    consecStep p r = 0 ↔ r = none ∨ r = some 0 := by
  match r with
  | none => simp [consecStep]
  | some v =>
    simp only [consecStep, Option.some.injEq, reduceCtorEq, false_or]
    split_ifs with h1 h2
    · constructor
      · intro hmax; omega
      · intro hv; rw [hv] at h1; exact absurd h1 (lt_irrefl 0)
    · constructor
      · intro hmin; omega
      · intro hv; rw [hv] at h2; exact absurd h2 (lt_irrefl 0)
    · constructor
      · intro _; exact le_antisymm (not_lt.mp h1) (not_lt.mp h2)
      · intro _; rfl

lemma consecStep_neg_to_pos (p : ℤ) (r : Option ℚ) (hp : p < 0)
    (hpos : 0 < consecStep p r) : consecStep p r = 1 := by
  match r with
  | none => simp [consecStep] at hpos
  | some v =>
    simp only [consecStep] at hpos ⊢
    split_ifs with h1 h2
    · omega
    · rw [if_neg h1, if_pos h2] at hpos; omega
    · rw [if_neg h1, if_neg h2] at hpos; omega

lemma consecStep_pos_to_neg (p : ℤ) (r : Option ℚ) (hp : 0 < p)
    (hneg : consecStep p r < 0) : consecStep p r = -1 := by
  match r with
  | none => simp [consecStep] at hneg
  | some v =>
    simp only [consecStep] at hneg ⊢
    split_ifs with h1 h2
    · rw [if_pos h1] at hneg; omega
    · omega
    · rw [if_neg h1, if_neg h2] at hneg; omega

/-- C3 (counterexample): on the returns `[-1, +1]` the streak output is
`[-1, 1]`: two adjacent days move from a negative streak to a positive
streak with no 0 in between, contradicting the claim. -/
theorem C3_consec_sign_jump_cex :
    consec [some (-1), some 1] = [-1, 1] ∧
      (consec [some (-1), some 1]).getD 0 0 < 0 ∧
      0 < (consec [some (-1), some 1]).getD 1 0 := by
  refine ⟨?_, by decide, by decide⟩
  decide

/-- C3 (amended): the streak output is 0 exactly on days whose return is
missing or zero; when the streak does change sign between adjacent days
(which the running loop allows), the new value is exactly `1` after a
negative streak and exactly `-1` after a positive streak: a fresh streak
of length one, never a larger jump. -/
theorem C3_consec_reset_and_flip (ret : List (Option ℚ)) :
    (∀ i, i < ret.length →
      ((consec ret).getD i 37 = 0 ↔
        ret.getD i (some 37) = none ∨ ret.getD i (some 37) = some 0)) ∧
    (∀ i, i + 1 < ret.length →
      ((consec ret).getD i 0 < 0 → 0 < (consec ret).getD (i + 1) 0 →
        (consec ret).getD (i + 1) 0 = 1) ∧
      (0 < (consec ret).getD i 0 → (consec ret).getD (i + 1) 0 < 0 →
        (consec ret).getD (i + 1) 0 = -1)) := by
  constructor
  · intro i hi
    have hlen : i < (consec ret).length := by rw [consec_length]; exact hi
    obtain ⟨p, hp, -⟩ := consec_getD_eq_step ret i hi
    have hd1 : (consec ret).getD i 37 = (consec ret).getD i 0 := by
      rw [List.getD_eq_getElem (consec ret) 37 hlen, List.getD_eq_getElem (consec ret) 0 hlen]
    have hd2 : ret.getD i (some 37) = ret.getD i none := by
      rw [List.getD_eq_getElem ret (some 37) hi, List.getD_eq_getElem ret none hi]
    rw [hd1, hd2, hp]
    exact consecStep_eq_zero_iff p (ret.getD i none)
  · intro i hi
    have hstep := consecAux_getD_succ 0 ret i hi
    constructor
    · intro hneg hpos
      rw [show (consec ret).getD (i+1) 0 = (consecAux 0 ret).getD (i+1) 0 from rfl, hstep]
      rw [show (consec ret).getD (i+1) 0 = (consecAux 0 ret).getD (i+1) 0 from rfl, hstep] at hpos
      exact consecStep_neg_to_pos _ _ hneg hpos
    · intro hpos hneg
      rw [show (consec ret).getD (i+1) 0 = (consecAux 0 ret).getD (i+1) 0 from rfl, hstep]
      rw [show (consec ret).getD (i+1) 0 = (consecAux 0 ret).getD (i+1) 0 from rfl, hstep] at hneg
      exact consecStep_pos_to_neg _ _ hpos hneg

/-- C3 (witness): the amended theorem applied to the concrete return
series `[+2, 0, none, -1]`. -/
theorem C3_consec_reset_and_flip_witness :
    ((consec [some 2, some 0, none, some (-1)]).getD 1 37 = 0 ↔
      ([some 2, some 0, none, some (-1)] : List (Option ℚ)).getD 1 (some 37) = none ∨
      ([some 2, some 0, none, some (-1)] : List (Option ℚ)).getD 1 (some 37) = some 0) ∧
    ((consec [some 2, some 0, none, some (-1)]).getD 0 0 < 0 →
      0 < (consec [some 2, some 0, none, some (-1)]).getD 1 0 →
      (consec [some 2, some 0, none, some (-1)]).getD 1 0 = 1) :=
  ⟨(C3_consec_reset_and_flip [some 2, some 0, none, some (-1)]).1 1 (by decide),
   ((C3_consec_reset_and_flip [some 2, some 0, none, some (-1)]).2 0 (by decide)).1⟩

/-- C2 (counterexample): a short-vol close of exactly 15 falls in bucket 2,
not bucket 3: the `pd.cut` intervals are right-closed, so a boundary value
falls in the lower bucket, contrary to the claim. -/
theorem C2_vol_regime_boundary_cex :
    vol_regime (some 15) = some 2 ∧ vol_regime (some 15) ≠ some 3 := by
  constructor
  · norm_num [vol_regime]
  · norm_num [vol_regime]

/-- C2 (amended): the bucket is assigned by the breakpoints
`{12,15,20,25,35}` with every boundary value falling in the LOWER bucket
(right-closed intervals): `v ≤ 12` gives 1, `12 < v ≤ 15` gives 2 (so both
14.9 and 15.0 give bucket 2), ..., `35 < v` gives 6, and a missing input
gives a missing bucket, never a default. -/
theorem C2_vol_regime_right_closed_buckets :
    vol_regime none = none ∧
    ∀ v : ℚ,
      (vol_regime (some v) = some 1 ↔ v ≤ 12) ∧
      (vol_regime (some v) = some 2 ↔ 12 < v ∧ v ≤ 15) ∧
      (vol_regime (some v) = some 3 ↔ 15 < v ∧ v ≤ 20) ∧
      (vol_regime (some v) = some 4 ↔ 20 < v ∧ v ≤ 25) ∧
      (vol_regime (some v) = some 5 ↔ 25 < v ∧ v ≤ 35) ∧
      (vol_regime (some v) = some 6 ↔ 35 < v) := by
  refine ⟨rfl, fun v => ?_⟩
  simp only [vol_regime, Option.map_some', Option.some.injEq]
  split_ifs with h1 h2 h3 h4 h5 <;>
    refine ⟨?_, ?_, ?_, ?_, ?_, ?_⟩ <;> constructor <;> intro h <;>
    first
      | assumption
      | rfl
      | (exfalso; omega)
      | (exact ⟨by linarith, by linarith⟩)
      | (exfalso; linarith [h.1, h.2])
      | (exfalso; linarith)
      | linarith

/-- C4 (confirmed): the term-structure state is one of `{-1, 0, 1}`; it is
1 exactly when both ratios are present and `≤ 1`, -1 exactly when both are
present and `> 1`, and 0 in every other case, including any missing or
mixed ratios. -/
theorem C4_term_state_encoding :
    ∀ r9d rvx3m : Option ℚ,
      (term_state r9d rvx3m = -1 ∨ term_state r9d rvx3m = 0 ∨ term_state r9d rvx3m = 1) ∧
      (term_state r9d rvx3m = 1 ↔
        (∃ x, r9d = some x ∧ x ≤ 1) ∧ (∃ y, rvx3m = some y ∧ y ≤ 1)) ∧
      (term_state r9d rvx3m = -1 ↔
        (∃ x, r9d = some x ∧ 1 < x) ∧ (∃ y, rvx3m = some y ∧ 1 < y)) ∧
      (∀ b, term_state none b = 0) ∧ (∀ a, term_state a none = 0) := by
  intro r9d rvx3m
  refine ⟨?_, ?_, ?_, fun b => ?_, fun a => ?_⟩
  · unfold term_state; split_ifs <;> simp
  · unfold term_state
    match r9d, rvx3m with
    | none, _ => simp [oLeB, oGtB, oLtB]
    | some x, none => simp [oLeB, oGtB, oLtB]
    | some x, some y =>
      simp only [oLeB, oGtB, oLtB, Bool.and_eq_true, decide_eq_true_eq,
        Option.some.injEq]
      split_ifs with h1 h2 <;> simp_all <;> omega
  · unfold term_state
    match r9d, rvx3m with
    | none, _ => simp [oLeB, oGtB, oLtB]
    | some x, none => simp [oLeB, oGtB, oLtB]
    | some x, some y =>
      simp only [oLeB, oGtB, oLtB, Bool.and_eq_true, decide_eq_true_eq,
        Option.some.injEq]
      split_ifs with h1 h2 <;> simp_all <;> omega
  · unfold term_state; simp [oLeB, oGtB, oLtB]
  · unfold term_state
    match a with
    | none => simp [oLeB, oGtB, oLtB]
    | some x => simp [oLeB, oGtB, oLtB]

/-- C6 (confirmed): Gap_Filled is always 0 or 1; it is 1 exactly when the
gap is up (Gap_Pct present and positive) and the low is at or below the
prior close, or the gap is down and the high is at or above the prior
close; and it is 0 whenever Gap_Pct is exactly 0 (and also whenever any
value the condition reads is missing). -/
theorem C6_gap_filled_spec :
    (∀ gapPct low high priorClose : Option ℚ,
      (gap_filled gapPct low high priorClose = 0 ∨
        gap_filled gapPct low high priorClose = 1) ∧
      (gap_filled gapPct low high priorClose = 1 ↔
        ((∃ g, gapPct = some g ∧ 0 < g) ∧
          ∃ l p, low = some l ∧ priorClose = some p ∧ l ≤ p) ∨
        ((∃ g, gapPct = some g ∧ g < 0) ∧
          ∃ h p, high = some h ∧ priorClose = some p ∧ p ≤ h))) ∧
    (∀ low high priorClose : Option ℚ, gap_filled (some 0) low high priorClose = 0) := by
  constructor
  · intro gapPct low high priorClose
    constructor
    · unfold gap_filled; split_ifs <;> simp
    · unfold gap_filled
      match gapPct, low, high, priorClose with
      | none, _, _, _ => simp [oLeB, oGtB, oGeB, oLtB]
      | some g, low, high, none =>
        match low, high with
        | none, none => simp [oLeB, oGtB, oGeB, oLtB]
        | none, some h => simp [oLeB, oGtB, oGeB, oLtB]
        | some l, none => simp [oLeB, oGtB, oGeB, oLtB]
        | some l, some h => simp [oLeB, oGtB, oGeB, oLtB]
      | some g, none, none, some p => simp [oLeB, oGtB, oGeB, oLtB]
      | some g, none, some h, some p =>
        simp only [oLeB, oGtB, oGeB, oLtB, Bool.and_eq_true, Bool.or_eq_true,
          decide_eq_true_eq, Option.some.injEq, reduceCtorEq]
        split_ifs <;> simp_all <;> tauto
      | some g, some l, none, some p =>
        simp only [oLeB, oGtB, oGeB, oLtB, Bool.and_eq_true, Bool.or_eq_true,
          decide_eq_true_eq, Option.some.injEq, reduceCtorEq]
        split_ifs <;> simp_all <;> tauto
      | some g, some l, some h, some p =>
        simp only [oLeB, oGtB, oGeB, oLtB, Bool.and_eq_true, Bool.or_eq_true,
          decide_eq_true_eq, Option.some.injEq, reduceCtorEq]
        split_ifs <;> simp_all <;> tauto
  · intro low high priorClose
    unfold gap_filled
    have h1 : oGtB (some 0) (some 0) = false := by simp [oGtB, oLtB]
    have h2 : oLtB (some 0) (some 0) = false := by simp [oLtB]
    simp [h1, h2]

lemma daysFromCivil_day_linear (y m d : ℤ) :
    daysFromCivil y m d = daysFromCivil y m 1 + (d - 1) := by
  unfold daysFromCivil
  split_ifs <;> ring

/-- C7 (confirmed): the options-expiration flag is 1 exactly on the third
Friday of the calendar month (a Friday with day of month in 15..21),
computed purely from the date; in particular 2024-01-19 gives 1 and
2024-01-12 gives 0. -/
theorem C7_is_opex_third_friday :
    (∀ dt : CivilDate, is_opex dt = 1 ↔ isThirdFriday dt) ∧
    is_opex ⟨2024, 1, 19⟩ = 1 ∧ is_opex ⟨2024, 1, 12⟩ = 0 := by
  refine ⟨?_, by decide, by decide⟩
  rintro ⟨y, m, d⟩
  simp only [is_opex, isThirdFriday, weekday, epochDay]
  rw [show daysFromCivil y m d = daysFromCivil y m 1 + (d - 1) from
    daysFromCivil_day_linear y m d]
  split_ifs with h
  · constructor
    · intro _
      refine ⟨?_, ?_, ?_⟩ <;> omega
    · intro _
      rfl
  · constructor
    · intro h0
      exact absurd h0 (by omega)
    · intro hw
      obtain ⟨h4, h15, h21⟩ := hw
      exact absurd (show d = 1 + (4 - (daysFromCivil y m 1 + 3) % 7) % 7 + 14 by omega) h

/-- C10 (confirmed): the Day_of_Week column holds, for each calendar date,
the zero-based weekday index plus 2, hence a value in 2..8, with Monday
encoded as 2 (2024-01-15), Tuesday as 3 (2024-01-16) and Friday as 6
(2024-01-19). -/
theorem C10_day_of_week_encoding :
    (∀ (spx : RawFrame) (vix vix9d vix3m : AlignedFrame),
      colEntry (buildColumns spx vix vix9d vix3m) spx.dates.length "Day_of_Week" =
        intCol (spx.dates.map day_of_week)) ∧
    (∀ dt : CivilDate, day_of_week dt = weekday dt + 2 ∧
      2 ≤ day_of_week dt ∧ day_of_week dt ≤ 8) ∧
    weekday ⟨2024, 1, 15⟩ = 0 ∧ day_of_week ⟨2024, 1, 15⟩ = 2 ∧
    weekday ⟨2024, 1, 16⟩ = 1 ∧ day_of_week ⟨2024, 1, 16⟩ = 3 ∧
    weekday ⟨2024, 1, 19⟩ = 4 ∧ day_of_week ⟨2024, 1, 19⟩ = 6 := by
  refine ⟨fun spx vix vix9d vix3m => rfl, ?_,
    by decide, by decide, by decide, by decide, by decide, by decide⟩
  intro dt
  refine ⟨rfl, ?_, ?_⟩ <;>
    · unfold day_of_week weekday
      omega

lemma length_diff (s : List ℚ) : (diff s).length = s.length := by
  match s with
  | [] => rfl
  | x :: xs =>
    simp only [diff, List.length_cons, List.length_zipWith]
    omega

lemma length_ewmMean (com : ℚ) (minp : ℕ) (xs : List (Option ℚ)) :
    (ewmMean com minp xs).length = xs.length := by
  simp [ewmMean]

lemma length_gainAvg (s : List ℚ) : (gainAvg s).length = s.length := by
  simp [gainAvg, length_ewmMean, length_diff]

lemma length_lossAvg (s : List ℚ) : (lossAvg s).length = s.length := by
  simp [lossAvg, length_ewmMean, length_diff]

lemma length_rsi (s : List ℚ) : (rsi s).length = s.length := by
  simp [rsi, length_gainAvg, length_lossAvg]

lemma rsiCombine_zero_loss (g : Option ℚ) : rsiCombine g (some 0) = none := by
  match g with
  | none => rfl
  | some gv => simp [rsiCombine]

/-- Core fact behind C1: wherever the smoothed average loss is exactly 0,
the rsi output is missing. -/
lemma rsi_missing_of_zero_loss (s : List ℚ) (i : ℕ)
    (hl : (lossAvg s).getD i none = some 0) :
    (rsi s).getD i (some 0) = none := by
  have hi : i < (lossAvg s).length := by
    by_contra hn
    rw [List.getD_eq_default _ _ (le_of_not_lt hn)] at hl
    exact Option.noConfusion hl
  have hir : i < (rsi s).length := by
    rw [length_rsi]
    rw [length_lossAvg] at hi
    exact hi
  rw [List.getD_eq_getElem _ _ hir]
  rw [List.getD_eq_getElem _ _ hi] at hl
  simp only [rsi] at hir ⊢
  rw [List.getElem_zipWith]
  rw [hl]
  exact rsiCombine_zero_loss _

lemma zipWith_sub_replicate (c : ℚ) (n : ℕ) :
    List.zipWith (fun prev cur => some (cur - prev))
      (c :: List.replicate n c) (List.replicate n c) =
      List.replicate n (some (0 : ℚ)) := by
  induction n with
  | zero => rfl
  | succ n ih =>
    simp only [List.replicate_succ, List.zipWith_cons_cons, sub_self] at ih ⊢
    rw [ih]

lemma diff_replicate (c : ℚ) (n : ℕ) :
    diff (List.replicate (n + 1) c) = none :: List.replicate n (some (0 : ℚ)) := by
  rw [List.replicate_succ]
  simp only [diff]
  rw [zipWith_sub_replicate]

lemma ewmTerms_rep0_length (r : ℚ) (n : ℕ) :
    (ewmTerms r (List.replicate n (some (0 : ℚ)) ++ [none])).length = n := by
  induction n with
  | zero => rfl
  | succ n ih =>
    simp only [List.replicate_succ, List.cons_append, ewmTerms, List.length_cons,
      List.length_map, List.append_eq]
    rw [ih]

lemma ewmTerms_rep0_snd (r : ℚ) (n : ℕ) :
    ∀ p ∈ ewmTerms r (List.replicate n (some (0 : ℚ)) ++ [none]), p.2 = 0 := by
  induction n with
  | zero =>
    intro p hp
    simp only [List.replicate, List.nil_append, ewmTerms, List.mem_map] at hp
    obtain ⟨q, hq, -⟩ := hp
    simp [ewmTerms] at hq
  | succ n ih =>
    intro p hp
    simp only [List.replicate_succ, List.cons_append, ewmTerms, List.mem_cons,
      List.mem_map] at hp
    rcases hp with h | ⟨q, hq, hpq⟩
    · rw [h]
    · rw [← hpq]
      exact ih q hq

lemma ewmMean_none_rep0 (com : ℚ) (minp n : ℕ) (hminp : minp ≤ n) (hn : 0 < n) :
    (ewmMean com minp (none :: List.replicate n (some (0 : ℚ)))).getD n none = some 0 := by
  have hxs : (none :: List.replicate n (some (0 : ℚ))).length = n + 1 := by simp
  have hlen : (ewmMean com minp (none :: List.replicate n (some (0 : ℚ)))).length = n + 1 := by
    rw [length_ewmMean, hxs]
  rw [List.getD_eq_getElem _ _ (by omega)]
  simp only [ewmMean, hxs]
  rw [List.getElem_map, List.getElem_range]
  have htake : (none :: List.replicate n (some (0 : ℚ))).take (n + 1) =
      none :: List.replicate n (some (0 : ℚ)) :=
    List.take_of_length_le (by simp)
  rw [htake]
  have hrev : (none :: List.replicate n (some (0 : ℚ))).reverse =
      List.replicate n (some (0 : ℚ)) ++ [none] := by
    rw [List.reverse_cons, List.reverse_replicate]
  rw [hrev]
  rw [if_pos ⟨by rw [ewmTerms_rep0_length]; exact hminp, by rw [ewmTerms_rep0_length]; exact hn⟩]
  have hnum : ((ewmTerms (1 - 1 / (1 + com))
      (List.replicate n (some (0 : ℚ)) ++ [none])).map fun p => p.1 * p.2).sum = 0 := by
    apply List.sum_eq_zero
    intro x hx
    rw [List.mem_map] at hx
    obtain ⟨p, hp, hx⟩ := hx
    rw [← hx, ewmTerms_rep0_snd _ n p hp, mul_zero]
  rw [hnum, zero_div]

lemma lossAvg_rsiCexClose : (lossAvg rsiCexClose).getD 14 none = some 0 := by
  have hdiff : (diff rsiCexClose).map (Option.map fun x => -(min x 0)) =
      none :: List.replicate 14 (some (0 : ℚ)) := by
    rw [rsiCexClose, show (15 : ℕ) = 14 + 1 from rfl, diff_replicate]
    simp
  rw [lossAvg, hdiff]
  exact ewmMean_none_rep0 13 14 14 le_rfl (by omega)

/-- C1 (counterexample): on 15 constant closes, position 14 is the first
post-warm-up output, the smoothed average loss there is exactly 0, and the
RSI output is missing, not 100: `l.replace(0, np.nan)` turns the zero
average loss into NaN and the whole formula into NaN. -/
theorem C1_rsi_zero_loss_cex :
    (rsi rsiCexClose).length = 15 ∧
    (lossAvg rsiCexClose).getD 14 none = some 0 ∧
    (rsi rsiCexClose).getD 14 (some 0) = none ∧
    (rsi rsiCexClose).getD 14 (some 0) ≠ some 100 := by
  have h1 := lossAvg_rsiCexClose
  have h2 := rsi_missing_of_zero_loss rsiCexClose 14 h1
  refine ⟨by rw [length_rsi]; rfl, h1, h2, by rw [h2]; exact fun hc => Option.noConfusion hc⟩

/-- C1 (amended): at every position where the smoothed average loss is
exactly zero, the RSI_14 output is a missing value, not 100 and not an
error: the code replaces the zero average loss by NaN before dividing, and
NaN propagates to the final value. -/
theorem C1_rsi_zero_loss_missing (s : List ℚ) (i : ℕ)
    (hl : (lossAvg s).getD i none = some 0) :
    (rsi s).getD i (some 0) = none :=
  rsi_missing_of_zero_loss s i hl

/-- C1 (witness): the amended theorem applied to the constant close
series, with its hypothesis discharged at position 14. -/
theorem C1_rsi_zero_loss_missing_witness :
    (lossAvg rsiCexClose).getD 14 none = some 0 ∧
    (rsi rsiCexClose).getD 14 (some 0) = none :=
  ⟨lossAvg_rsiCexClose,
   C1_rsi_zero_loss_missing rsiCexClose 14 lossAvg_rsiCexClose⟩

lemma mem_of_mem_trimCol {idx : List CivilDate} {start : CivilDate} {col : List Cell}
    {c : Cell} (h : c ∈ trimCol idx start col) : c ∈ col := by
  simp only [trimCol, List.mem_map, List.mem_filter] at h
  obtain ⟨p, ⟨hz, -⟩, rfl⟩ := h
  exact (List.of_mem_zip hz).2

lemma getD_eq_of_all_eq {α : Type} {l : List α} {d : α} (h : ∀ x ∈ l, x = d) (i : ℕ) :
    l.getD i d = d := by
  by_cases hi : i < l.length
  · rw [List.getD_eq_getElem _ _ hi]
    exact h _ (List.getElem_mem hi)
  · rw [List.getD_eq_default _ _ (le_of_not_lt hi)]

lemma find?_map_pair (g : String → List Cell) (c : String) (l : List String) (hl : c ∈ l) :
    ((l.map fun x => (x, g x)).find? fun p => decide (p.1 = c)) = some (c, g c) := by
  induction l with
  | nil => simp at hl
  | cons x xs ih =>
    by_cases hx : x = c
    · subst hx
      simp [List.find?_cons]
    · rcases List.mem_cons.mp hl with h | h2
      · exact absurd h.symm hx
      · simp only [List.map_cons, List.find?_cons]
        have hfalse : (decide ((x, g x).1 = c)) = false := by simp [hx]
        rw [hfalse]
        exact ih h2

lemma getCol_buildTable (start : CivilDate) (spx : RawFrame)
    (vix vix9d vix3m : AlignedFrame) (c : String) (hc : c ∈ output_cols) :
    getCol (buildTable start spx vix vix9d vix3m) c =
      trimCol spx.dates start
        (colEntry (buildColumns spx vix vix9d vix3m) spx.dates.length c) := by
  unfold getCol buildTable
  rw [find?_map_pair
    (fun c => trimCol spx.dates start
      (colEntry (buildColumns spx vix vix9d vix3m) spx.dates.length c)) c output_cols hc]
  rfl

lemma emptyAligned_closes_all_none (idx : List CivilDate) :
    ∀ x ∈ (emptyAligned idx).closes, x = none := by
  intro x hx
  simp only [emptyAligned, List.mem_map] at hx
  obtain ⟨-, -, h⟩ := hx
  exact h.symm

lemma emptyAligned_opens_all_none (idx : List CivilDate) :
    ∀ x ∈ (emptyAligned idx).opens, x = none := by
  intro x hx
  simp only [emptyAligned, List.mem_map] at hx
  obtain ⟨-, -, h⟩ := hx
  exact h.symm

lemma pct_changeO_all_none {s : List (Option ℚ)} (hs : ∀ x ∈ s, x = none) :
    ∀ x ∈ pct_changeO s, x = none := by
  intro x hx
  simp only [pct_changeO, List.mem_map, List.mem_range] at hx
  obtain ⟨i, -, rfl⟩ := hx
  by_cases h1 : 1 ≤ i
  · rw [if_pos h1, getD_eq_of_all_eq hs i]
    rfl
  · rw [if_neg h1]

lemma zipO2_all_none_left (f : ℚ → ℚ → ℚ) {l1 : List (Option ℚ)}
    (h1 : ∀ a ∈ l1, a = none) :
    ∀ (l2 : List (Option ℚ)), ∀ x ∈ zipO2 f l1 l2, x = none := by
  induction l1 with
  | nil => intro l2 x hx; simp [zipO2] at hx
  | cons a as ih =>
    intro l2 x hx
    match l2 with
    | [] => simp [zipO2] at hx
    | b :: bs =>
      simp only [zipO2, List.zipWith_cons_cons, List.mem_cons] at hx
      rcases hx with rfl | hx
      · rw [h1 a (List.mem_cons_self a as)]
        cases b <;> rfl
      · exact ih (fun y hy => h1 y (List.mem_cons_of_mem a hy)) bs x hx

lemma zipO2_all_none_right (f : ℚ → ℚ → ℚ) {l2 : List (Option ℚ)}
    (h2 : ∀ b ∈ l2, b = none) :
    ∀ (l1 : List (Option ℚ)), ∀ x ∈ zipO2 f l1 l2, x = none := by
  induction l2 with
  | nil => intro l1 x hx; cases l1 <;> simp [zipO2] at hx
  | cons b bs ih =>
    intro l1 x hx
    match l1 with
    | [] => simp [zipO2] at hx
    | a :: as =>
      simp only [zipO2, List.zipWith_cons_cons, List.mem_cons] at hx
      rcases hx with rfl | hx
      · rw [h2 b (List.mem_cons_self b bs)]
        cases a <;> rfl
      · exact ih (fun y hy => h2 y (List.mem_cons_of_mem b hy)) as x hx

lemma ofOptCol_all_na {s : List (Option ℚ)} (hs : ∀ x ∈ s, x = none) :
    ∀ c ∈ ofOptCol s, c = Cell.na := by
  intro c hc
  simp only [ofOptCol, List.mem_map] at hc
  obtain ⟨o, ho, rfl⟩ := hc
  rw [hs o ho]
  rfl

lemma lookupDate_isSome (ds : List CivilDate) (vs : List ℚ)
    (hlen : vs.length = ds.length) (x : CivilDate) (hx : x ∈ ds) :
    ∃ q, lookupDate ds vs x = some q := by
  induction ds generalizing vs with
  | nil => simp at hx
  | cons d ds ih =>
    match vs, hlen with
    | v :: vs, hlen =>
      by_cases hd : d = x
      · refine ⟨v, ?_⟩
        simp [lookupDate, List.zip_cons_cons, List.find?_cons, hd]
      · rcases List.mem_cons.mp hx with h | hx2
        · exact absurd h.symm hd
        · have hlen2 : vs.length = ds.length := by simpa using hlen
          obtain ⟨q, hq⟩ := ih vs hlen2 hx2
          refine ⟨q, ?_⟩
          simp only [lookupDate, List.zip_cons_cons, List.find?_cons] at hq ⊢
          have hfalse : (decide ((d, v).1 = x)) = false := by simp [hd]
          rw [hfalse]
          exact hq

/-- C8 (counterexample): the fixed output contract declares 58 columns,
not 57. -/
theorem C8_column_count_cex : output_cols.length = 58 ∧ output_cols.length ≠ 57 := by
  constructor
  · rfl
  · decide

/-- C8 (amended): every emitted row contains every one of the 58 declared
output columns, in the exact fixed order of the output contract (the
header equals the declared list and every row has one cell per declared
column); no column is reordered or dropped even when entirely missing: the
placeholder column High_Time is declared and consists exclusively of
missing cells. -/
theorem C8_all_columns_every_row (start : CivilDate) (spx : RawFrame)
    (vix vix9d vix3m : AlignedFrame) :
    csvHeader (buildTable start spx vix vix9d vix3m) = output_cols ∧
    output_cols.length = 58 ∧
    (csvRows (buildTable start spx vix vix9d vix3m)).map List.length =
      List.replicate (nRows (buildTable start spx vix vix9d vix3m)) 58 ∧
    "High_Time" ∈ output_cols ∧
    getCol (buildTable start spx vix vix9d vix3m) "High_Time" =
      List.replicate (getCol (buildTable start spx vix vix9d vix3m) "High_Time").length
        Cell.na := by
  refine ⟨rfl, rfl, ?_, by decide, ?_⟩
  · refine List.eq_replicate_iff.2 ⟨by simp [csvRows], ?_⟩
    intro x hx
    simp only [csvRows, List.mem_map, List.mem_range] at hx
    obtain ⟨row, ⟨j, -, hrow⟩, rfl⟩ := hx
    rw [← hrow, List.length_map]
    rfl
  · refine List.eq_replicate_iff.2 ⟨rfl, ?_⟩
    intro c hc
    rw [getCol_buildTable start spx vix vix9d vix3m "High_Time" (by decide)] at hc
    exact List.eq_of_mem_replicate (mem_of_mem_trimCol hc)

/-- C9 (confirmed): on the aligned master calendar, the Prior_Close column
is the one-day lag of the index close: the first entry is missing and
every later entry equals the close of the previous calendar date. -/
theorem C9_prior_close_lag (spx : RawFrame) (vix vix9d vix3m : AlignedFrame) :
    colEntry (buildColumns spx vix vix9d vix3m) spx.dates.length "Prior_Close" =
      ofOptCol (shift1 spx.closes) ∧
    (spx.closes ≠ [] → (ofOptCol (shift1 spx.closes)).getD 0 (Cell.num 0) = Cell.na) ∧
    (∀ i, i + 1 < spx.closes.length →
      (ofOptCol (shift1 spx.closes)).getD (i + 1) Cell.na =
        Cell.num (spx.closes.getD i 0)) := by
  refine ⟨rfl, ?_, ?_⟩
  · intro hne
    match hcl : spx.closes, hne with
    | c :: rest, _ => rfl
  · intro i hi
    have hlen : (ofOptCol (shift1 spx.closes)).length = spx.closes.length := by
      simp [ofOptCol, shift1]
    rw [List.getD_eq_getElem _ _ (by rw [hlen]; exact hi)]
    rw [List.getD_eq_getElem _ _ (by omega)]
    simp only [ofOptCol, shift1]
    rw [List.getElem_map, List.getElem_take, List.getElem_cons_succ, List.getElem_map]
    rfl

/-- C9 (witness): the lag theorem applied to the concrete demo frame, with
both hypotheses discharged: the first Prior_Close cell is missing and the
second equals the first close. -/
theorem C9_prior_close_lag_witness :
    (demoSpx.closes ≠ [] ∧
      (ofOptCol (shift1 demoSpx.closes)).getD 0 (Cell.num 0) = Cell.na) ∧
    (0 + 1 < demoSpx.closes.length ∧
      (ofOptCol (shift1 demoSpx.closes)).getD (0 + 1) Cell.na =
        Cell.num (demoSpx.closes.getD 0 0)) :=
  ⟨⟨by decide, (C9_prior_close_lag demoSpx demoAligned demoAligned demoAligned).2.1
      (by decide)⟩,
   ⟨by decide, (C9_prior_close_lag demoSpx demoAligned demoAligned demoAligned).2.2 0
      (by decide)⟩⟩

lemma trim_ofOptCol_all_na {idx : List CivilDate} {start : CivilDate}
    {s : List (Option ℚ)} (hs : ∀ x ∈ s, x = none) :
    ∀ c ∈ trimCol idx start (ofOptCol s), c = Cell.na :=
  fun c hc => ofOptCol_all_na hs c (mem_of_mem_trimCol hc)

lemma map_mul100_all_none {s : List (Option ℚ)} (hs : ∀ x ∈ s, x = none) :
    ∀ x ∈ s.map (Option.map (· * 100)), x = none := by
  intro x hx
  simp only [List.mem_map] at hx
  obtain ⟨o, ho, rfl⟩ := hx
  rw [hs o ho]
  rfl

lemma trim_numCol_num {idx : List CivilDate} {start : CivilDate} {s : List ℚ} :
    ∀ c ∈ trimCol idx start (numCol s), ∃ q, c = Cell.num q := by
  intro c hc
  have h2 := mem_of_mem_trimCol hc
  simp only [numCol, List.mem_map] at h2
  obtain ⟨q, -, rfl⟩ := h2
  exact ⟨q, rfl⟩

lemma trim_lookup_num {start : CivilDate} (idx : List CivilDate) (f : RawFrame)
    (hcov : ∀ dt ∈ idx, dt ∈ f.dates) :
    ∀ c ∈ trimCol idx start (ofOptCol ((reindexFrame f idx).closes)),
      ∃ q, c = Cell.num q := by
  intro c hc
  have h2 := mem_of_mem_trimCol hc
  simp only [reindexFrame, ofOptCol, List.mem_map] at h2
  obtain ⟨o, ⟨dt, hdt, rfl⟩, rfl⟩ := h2
  obtain ⟨q, hq⟩ := lookupDate_isSome f.dates f.closes f.len_closes dt (hcov dt hdt)
  exact ⟨q, by rw [hq]; rfl⟩

/-- C5 (confirmed): a failed primary (index) download aborts the run with
no output produced; a failed VIX9D (or VIX3M) download is replaced by an
all-missing series, the run completes and produces the table, the value
columns derived from the failed instrument are entirely missing, and the
index and short-vol price columns carry their data: every close cell is a
number, and, when the short-vol frame covers the calendar, every
VIX_Close cell is a number. -/
theorem C5_source_failure_handling :
    (∀ (e : String) (vixR v9R v3R : Except String RawFrame) (start : CivilDate),
      buildRun start (.error e) vixR v9R v3R = .error e) ∧
    (∀ (start : CivilDate) (spx vixF vix3mF : RawFrame) (e9 : String),
      (∀ dt ∈ spx.dates, dt ∈ vixF.dates) →
      ∃ out, buildRun start (.ok spx) (.ok vixF) (.error e9) (.ok vix3mF) = .ok out ∧
        (∀ c ∈ getCol out "VIX9D_Open", c = Cell.na) ∧
        (∀ c ∈ getCol out "VIX9D_Close", c = Cell.na) ∧
        (∀ c ∈ getCol out "VIX9D_Change_Pct", c = Cell.na) ∧
        (∀ c ∈ getCol out "VIX9D_VIX_Ratio", c = Cell.na) ∧
        (∀ c ∈ getCol out "close", ∃ q, c = Cell.num q) ∧
        (∀ c ∈ getCol out "VIX_Close", ∃ q, c = Cell.num q)) ∧
    (∀ (start : CivilDate) (spx vixF vix9dF : RawFrame) (e3 : String),
      (∀ dt ∈ spx.dates, dt ∈ vixF.dates) →
      ∃ out, buildRun start (.ok spx) (.ok vixF) (.ok vix9dF) (.error e3) = .ok out ∧
        (∀ c ∈ getCol out "VIX3M_Open", c = Cell.na) ∧
        (∀ c ∈ getCol out "VIX3M_Close", c = Cell.na) ∧
        (∀ c ∈ getCol out "VIX3M_Change_Pct", c = Cell.na) ∧
        (∀ c ∈ getCol out "VIX_VIX3M_Ratio", c = Cell.na) ∧
        (∀ c ∈ getCol out "close", ∃ q, c = Cell.num q)) := by
  refine ⟨fun e vixR v9R v3R start => rfl, ?_, ?_⟩
  · intro start spx vixF vix3mF e9 hcov
    refine ⟨_, rfl, ?_, ?_, ?_, ?_, ?_, ?_⟩
    · intro c hc
      rw [getCol_buildTable _ _ _ _ _ _ (by decide)] at hc
      exact trim_ofOptCol_all_na (emptyAligned_opens_all_none spx.dates) c hc
    · intro c hc
      rw [getCol_buildTable _ _ _ _ _ _ (by decide)] at hc
      exact trim_ofOptCol_all_na (emptyAligned_closes_all_none spx.dates) c hc
    · intro c hc
      rw [getCol_buildTable _ _ _ _ _ _ (by decide)] at hc
      exact trim_ofOptCol_all_na
        (map_mul100_all_none (pct_changeO_all_none (emptyAligned_closes_all_none spx.dates)))
        c hc
    · intro c hc
      rw [getCol_buildTable _ _ _ _ _ _ (by decide)] at hc
      exact trim_ofOptCol_all_na
        (zipO2_all_none_left (fun a b => a / b) (emptyAligned_closes_all_none spx.dates)
          ((reindexFrame vixF spx.dates).closes)) c hc
    · intro c hc
      rw [getCol_buildTable _ _ _ _ _ _ (by decide)] at hc
      exact trim_numCol_num c hc
    · intro c hc
      rw [getCol_buildTable _ _ _ _ _ _ (by decide)] at hc
      exact trim_lookup_num spx.dates vixF hcov c hc
  · intro start spx vixF vix9dF e3 hcov
    refine ⟨_, rfl, ?_, ?_, ?_, ?_, ?_⟩
    · intro c hc
      rw [getCol_buildTable _ _ _ _ _ _ (by decide)] at hc
      exact trim_ofOptCol_all_na (emptyAligned_opens_all_none spx.dates) c hc
    · intro c hc
      rw [getCol_buildTable _ _ _ _ _ _ (by decide)] at hc
      exact trim_ofOptCol_all_na (emptyAligned_closes_all_none spx.dates) c hc
    · intro c hc
      rw [getCol_buildTable _ _ _ _ _ _ (by decide)] at hc
      exact trim_ofOptCol_all_na
        (map_mul100_all_none (pct_changeO_all_none (emptyAligned_closes_all_none spx.dates)))
        c hc
    · intro c hc
      rw [getCol_buildTable _ _ _ _ _ _ (by decide)] at hc
      exact trim_ofOptCol_all_na
        (zipO2_all_none_right (fun a b => a / b) (emptyAligned_closes_all_none spx.dates)
          ((reindexFrame vixF spx.dates).closes)) c hc
    · intro c hc
      rw [getCol_buildTable _ _ _ _ _ _ (by decide)] at hc
      exact trim_numCol_num c hc

/-- C5 (witness): the failure-handling theorem at concrete inputs: a run
with a failed index download aborts with that error, and runs with only a
failed VIX9D (respectively VIX3M) download complete with the stated
columns. -/
theorem C5_source_failure_handling_witness :
    buildRun ⟨2024, 1, 15⟩ (.error "no SPX data") (.ok demoVix) (.ok demoVix)
      (.ok demoVix) = .error "no SPX data" ∧
    (∃ out, buildRun ⟨2024, 1, 15⟩ (.ok demoSpx) (.ok demoVix) (.error "no VIX9D data")
        (.ok demoVix) = .ok out ∧
      (∀ c ∈ getCol out "VIX9D_Open", c = Cell.na) ∧
      (∀ c ∈ getCol out "VIX9D_Close", c = Cell.na) ∧
      (∀ c ∈ getCol out "VIX9D_Change_Pct", c = Cell.na) ∧
      (∀ c ∈ getCol out "VIX9D_VIX_Ratio", c = Cell.na) ∧
      (∀ c ∈ getCol out "close", ∃ q, c = Cell.num q) ∧
      (∀ c ∈ getCol out "VIX_Close", ∃ q, c = Cell.num q)) ∧
    (∃ out, buildRun ⟨2024, 1, 15⟩ (.ok demoSpx) (.ok demoVix) (.ok demoVix)
        (.error "no VIX3M data") = .ok out ∧
      (∀ c ∈ getCol out "VIX3M_Open", c = Cell.na) ∧
      (∀ c ∈ getCol out "VIX3M_Close", c = Cell.na) ∧
      (∀ c ∈ getCol out "VIX3M_Change_Pct", c = Cell.na) ∧
      (∀ c ∈ getCol out "VIX_VIX3M_Ratio", c = Cell.na) ∧
      (∀ c ∈ getCol out "close", ∃ q, c = Cell.num q)) :=
  ⟨C5_source_failure_handling.1 "no SPX data" (.ok demoVix) (.ok demoVix) (.ok demoVix)
      ⟨2024, 1, 15⟩,
   C5_source_failure_handling.2.1 ⟨2024, 1, 15⟩ demoSpx demoVix demoVix "no VIX9D data"
      (by decide),
   C5_source_failure_handling.2.2 ⟨2024, 1, 15⟩ demoSpx demoVix demoVix "no VIX3M data"
      (by decide)⟩
